import Mathlib

/-!
Shallow embedding of the resume-builder frontend core
(`src/frontend/src/components/ResumeBuilder.tsx`, the templates page
`src/frontend/src/app/templates/page.tsx`, and the service layer), with
theorems checking the specification's claims about it.

JavaScript objects that flow through the generic list editors are modelled
as association lists of string fields (`JsObj`); an array slot may be a
hole (`Option`), matching JavaScript sparse-array semantics created by
out-of-bounds index assignment.  Network calls are modelled by passing the
response (or a transport failure, `Except.error`) as an explicit argument
and recording the issued calls, alerts and console logs as effect traces.
-/

namespace ResumeBuilder

/-- A JavaScript object with string-valued fields, as an association list
in insertion order (the resume list items carry only string fields). -/
abbrev JsObj := List (String × String)

/-- JavaScript `\x7b...base, [k]: v\x7d`: if `k` is already a key its value is
replaced in place (key order kept), otherwise `(k, v)` is appended. -/
def objAssign (base : JsObj) (k v : String) : JsObj :=
  if base.any (fun p => p.1 = k) then
    base.map (fun p => if p.1 = k then (k, v) else p)
  else
    base ++ [(k, v)]

/-- Reading `arr[i]` from a JavaScript array: in-bounds gives the slot
(possibly a hole, i.e. `undefined`), out-of-bounds gives `undefined`. -/
def jsArrayGet (l : List (Option α)) (i : Nat) : Option α :=
  l.getD i none

/-- JavaScript `arr[i] = a` for an array index `i`: in-bounds replaces the
slot; past the end the array is extended to length `i + 1`, the gap being
filled with holes. -/
def jsArraySet (l : List (Option α)) (i : Nat) (a : α) : List (Option α) :=
  if i < l.length then l.set i (some a)
  else l ++ List.replicate (i - l.length) none ++ [some a]

/-- The `ResumeData` record of `@/types/resume`.  The optional scalar
fields are initialised to `""` by `initialResumeData` and only ever hold
strings; `resume_id = ""` is the "no identity yet" state (the code tests
it with JavaScript truthiness). -/
structure ResumeData where
  resume_id : String
  name : String
  email : String
  phone : String
  linkedin : String
  github : String
  website : String
  summary : String
  experiences : List (Option JsObj)
  education : List (Option JsObj)
  skills : List String
  projects : List (Option JsObj)
  certifications : List String
  languages : List String
deriving DecidableEq, Repr

/-- `initialResumeData` from `ResumeBuilder.tsx`. -/
def initialResumeData : ResumeData :=
  { resume_id := "", name := "", email := "", phone := "", linkedin := ""
    github := "", website := "", summary := ""
    experiences := [], education := [], skills := []
    projects := [], certifications := [], languages := [] }

/-- A partial `ResumeData`, as sent back in the `version` field of an
improve response; present fields overwrite the local document
(`\x7b...prev, ...improveRes.version\x7d`). -/
structure VersionPatch where
  resume_id : Option String := none
  name : Option String := none
  email : Option String := none
  phone : Option String := none
  linkedin : Option String := none
  github : Option String := none
  website : Option String := none
  summary : Option String := none
  experiences : Option (List (Option JsObj)) := none
  education : Option (List (Option JsObj)) := none
  skills : Option (List String) := none
  projects : Option (List (Option JsObj)) := none
  certifications : Option (List String) := none
  languages : Option (List String) := none
deriving DecidableEq, Repr

/-- JavaScript spread merge `\x7b...prev, ...version\x7d`: every field present
in the patch overwrites the corresponding field of the document. -/
def mergeVersion (d : ResumeData) (p : VersionPatch) : ResumeData :=
  { resume_id := p.resume_id.getD d.resume_id
    name := p.name.getD d.name
    email := p.email.getD d.email
    phone := p.phone.getD d.phone
    linkedin := p.linkedin.getD d.linkedin
    github := p.github.getD d.github
    website := p.website.getD d.website
    summary := p.summary.getD d.summary
    experiences := p.experiences.getD d.experiences
    education := p.education.getD d.education
    skills := p.skills.getD d.skills
    projects := p.projects.getD d.projects
    certifications := p.certifications.getD d.certifications
    languages := p.languages.getD d.languages }

/-- The three repeating sections handled by the generic list editors
(`field: "experiences" | "education" | "projects"`). -/
inductive ListField where
  | experiences
  | education
  | projects
deriving DecidableEq, Repr

/-- Read the section list addressed by a `ListField`. -/
def getListField (d : ResumeData) : ListField → List (Option JsObj)
  | .experiences => d.experiences
  | .education => d.education
  | .projects => d.projects

/-- Write the section list addressed by a `ListField`
(`\x7b ...prev, [field]: newList \x7d`). -/
def setListField (d : ResumeData) (f : ListField) (l : List (Option JsObj)) :
    ResumeData :=
  match f with
  | .experiences => { d with experiences := l }
  | .education => { d with education := l }
  | .projects => { d with projects := l }

/-- The scalar inputs wired through `handleChange` in the form (their
`name` attributes are exactly `name`, `email`, `phone`, `linkedin`,
`summary`). -/
inductive FormField where
  | name
  | email
  | phone
  | linkedin
  | summary
deriving DecidableEq, Repr

/-- `handleChange`: `setResumeData(prev => (\x7b ...prev, [name]: value \x7d))`,
restricted to the input names occurring in the form. -/
def handleChange (d : ResumeData) (f : FormField) (value : String) :
    ResumeData :=
  match f with
  | .name => { d with name := value }
  | .email => { d with email := value }
  | .phone => { d with phone := value }
  | .linkedin => { d with linkedin := value }
  | .summary => { d with summary := value }

/-- `handleListChange(index, field, subfield, value)`:
`newList[index] = \x7b ...newList[index], [subfield]: value \x7d` on a copy of
the section list, then the list is written back. -/
def handleListChange (d : ResumeData) (index : Nat) (f : ListField)
    (subfield value : String) : ResumeData :=
  let newList := getListField d f
  setListField d f
    (jsArraySet newList index
      (objAssign ((jsArrayGet newList index).getD []) subfield value))

/-- The default record appended by `addItem` for each section. -/
def defaultItem : ListField → JsObj
  | .experiences =>
      [("title", ""), ("company", ""), ("period", ""), ("description", "")]
  | .education => [("degree", ""), ("institution", ""), ("year", "")]
  | .projects => [("name", ""), ("description", "")]

/-- `addItem(field)`: appends the section-appropriate default record. -/
def addItem (d : ResumeData) (f : ListField) : ResumeData :=
  setListField d f (getListField d f ++ [some (defaultItem f)])

/-- `Array.prototype.filter` with the element index passed to the
predicate, counting from `k`. -/
def filterIdxFrom (p : Nat → Bool) : Nat → List α → List α
  | _, [] => []
  | k, a :: l =>
      if p k then a :: filterIdxFrom p (k + 1) l else filterIdxFrom p (k + 1) l

/-- The list-level core of `removeItem`:
`(prev[field] as any[]).filter((_, i) => i !== index)`.  The index is an
arbitrary JavaScript number, modelled as an integer. -/
def removeItemList (l : List (Option JsObj)) (index : Int) :
    List (Option JsObj) :=
  filterIdxFrom (fun i => ((i : Int) != index)) 0 l

/-- `removeItem(field, index)`. -/
def removeItem (d : ResumeData) (f : ListField) (index : Int) : ResumeData :=
  setListField d f (removeItemList (getListField d f) index)

/-- JavaScript `String.prototype.split(",")` at the character level:
splits on every comma, keeping empty segments (splitting the empty string
yields one empty segment). -/
def splitCommaChars : List Char → List (List Char)
  | [] => [[]]
  | c :: cs =>
      if c = ',' then [] :: splitCommaChars cs
      else
        match splitCommaChars cs with
        | [] => [[c]]
        | t :: r => (c :: t) :: r

/-- JavaScript `value.split(",")`. -/
def jsSplitComma (s : String) : List String :=
  (splitCommaChars s.data).map String.mk

/-- JavaScript `s.trim()`: drops leading and trailing whitespace. -/
def jsTrim (s : String) : String :=
  String.mk
    (((s.data.dropWhile Char.isWhitespace).reverse.dropWhile
        Char.isWhitespace).reverse)

/-- The comma tokenizer used by the skills, certifications and languages
inputs: `value.split(",").map(s => s.trim()).filter(s => s)` (a string is
truthy exactly when non-empty). -/
def tokenize (s : String) : List String :=
  ((jsSplitComma s).map jsTrim).filter (fun t => t ≠ "")

/-- The skills input `onChange`: the whole `skills` list is replaced by
the tokenized input. -/
def skillsInputChange (d : ResumeData) (value : String) : ResumeData :=
  { d with skills := tokenize value }

/-- The certifications input `onChange`. -/
def certificationsInputChange (d : ResumeData) (value : String) :
    ResumeData :=
  { d with certifications := tokenize value }

/-- The languages input `onChange`. -/
def languagesInputChange (d : ResumeData) (value : String) : ResumeData :=
  { d with languages := tokenize value }

/-- The `steps` array of the wizard. -/
def steps : List (Nat × String) :=
  [(1, "Personal Info"), (2, "Experience"), (3, "Education"),
   (4, "Skills & More")]

/-- The Next button: `setCurrentStep(prev => Math.min(steps.length, prev + 1))`. -/
def advanceStep (p : Nat) : Nat :=
  min steps.length (p + 1)

/-- The Previous button: `setCurrentStep(prev => Math.max(1, prev - 1))`. -/
def retreatStep (p : Nat) : Nat :=
  max 1 (p - 1)

/-- The step positions reachable from the initial state `currentStep = 1`
by clicking the navigation buttons. -/
inductive ReachableStep : Nat → Prop where
  | init : ReachableStep 1
  | next {p : Nat} : ReachableStep p → ReachableStep (advanceStep p)
  | back {p : Nat} : ReachableStep p → ReachableStep (retreatStep p)

/-- A network call issued through `resumeService`, with the arguments the
controller passes to it. -/
inductive Call where
  | create (data : ResumeData)
  | improve (resume_id : String) (options : ResumeData)
deriving DecidableEq, Repr

/-- The observable side effects of one handler run: service calls issued
(in order), `alert` messages shown, and `console.error` diagnostics. -/
structure Effects where
  calls : List Call
  alerts : List String
  logs : List String
deriving DecidableEq, Repr

/-- `handleSubmit`: sends the document to `create`; on a truthy
`result?.resume_id` stores it and alerts success; a thrown failure is
logged and alerted, leaving the document unchanged. -/
def handleSubmit (d : ResumeData) (resp : Except Unit (Option String)) :
    ResumeData × Effects :=
  match resp with
  | .error _ =>
      (d, { calls := [.create d]
            alerts := ["Failed to create resume. Please try again."]
            logs := ["Failed to create resume:"] })
  | .ok none => (d, { calls := [.create d], alerts := [], logs := [] })
  | .ok (some s) =>
      if s = "" then (d, { calls := [.create d], alerts := [], logs := [] })
      else
        ({ d with resume_id := s },
         { calls := [.create d]
           alerts := ["Resume created successfully!"], logs := [] })

/-- `handleImprove`.  `isImproving` is the in-flight flag at entry time;
the handler sets it and clears it in `finally` but never branches on it.
`createResp` is the outcome of `createResume` (consulted only when the
document has no identity) and `improveResp` the outcome of
`improveResume`.  Returns the final document, the final flag value, and
the effect trace.  Note that the `improve` call passes the
closure-captured original document, while the merge applies to the latest
state (which already carries a freshly created identity). -/
def handleImprove (d : ResumeData) (isImproving : Bool)
    (createResp : Except Unit (Option String))
    (improveResp : Except Unit (Option VersionPatch)) :
    ResumeData × Bool × Effects :=
  if d.resume_id = "" then
    match createResp with
    | .error _ =>
        (d, false, { calls := [.create d], alerts := []
                     logs := ["AI Improvement failed:"] })
    | .ok o =>
        match o with
        | none => (d, false, { calls := [.create d], alerts := [], logs := [] })
        | some s =>
            if s = "" then
              (d, false, { calls := [.create d], alerts := [], logs := [] })
            else
              let d1 := { d with resume_id := s }
              match improveResp with
              | .error _ =>
                  (d1, false,
                   { calls := [.create d, .improve s d], alerts := []
                     logs := ["AI Improvement failed:"] })
              | .ok none =>
                  (d1, false,
                   { calls := [.create d, .improve s d], alerts := []
                     logs := [] })
              | .ok (some p) =>
                  (mergeVersion d1 p, false,
                   { calls := [.create d, .improve s d], alerts := []
                     logs := [] })
  else
    match improveResp with
    | .error _ =>
        (d, false, { calls := [.improve d.resume_id d], alerts := []
                     logs := ["AI Improvement failed:"] })
    | .ok none =>
        (d, false, { calls := [.improve d.resume_id d], alerts := []
                     logs := [] })
    | .ok (some p) =>
        (mergeVersion d p, false,
         { calls := [.improve d.resume_id d], alerts := [], logs := [] })

/-- A click on the "Improve with AI" button: the button carries
`disabled=\x7bisImproving\x7d`, so a click while the flag is set does nothing;
otherwise it runs `handleImprove`. -/
def improveButtonClick (d : ResumeData) (isImproving : Bool)
    (createResp : Except Unit (Option String))
    (improveResp : Except Unit (Option VersionPatch)) :
    ResumeData × Bool × Effects :=
  if isImproving then (d, isImproving, { calls := [], alerts := [], logs := [] })
  else handleImprove d isImproving createResp improveResp

/-- A normalized template descriptor (`\x7bname, description?\x7d`). -/
structure Template where
  name : String
  description : Option String
deriving DecidableEq, Repr

/-- One raw entry of a templates response: either a bare string or an
object with (possibly missing) `name` and `description` fields. -/
inductive TEntry where
  | str (s : String)
  | obj (name : Option String) (description : Option String)
deriving DecidableEq, Repr

/-- JavaScript `x || undefined` on an optional string: a falsy value
(absent or empty) degrades to `undefined`. -/
def truthyStr : Option String → Option String
  | some s => if s = "" then none else some s
  | none => none

/-- Normalization of an object entry: `t.name || String(t)` (for an object
the string conversion is `"[object Object]"`) and
`t.description || undefined`. -/
def normalizeObj (n desc : Option String) : Template :=
  { name :=
      match n with
      | some s => if s = "" then "[object Object]" else s
      | none => "[object Object]"
    description := truthyStr desc }

/-- Normalization used for the `template_info` branch, which applies
`t.name || String(t)` without a `typeof` check: a bare string `s` has no
`name` field, so `String(t)` yields `s` itself. -/
def normalizeInfoEntry : TEntry → Template
  | .str s => { name := s, description := none }
  | .obj n desc => normalizeObj n desc

/-- Normalization used for the `templates` and direct-array branches:
`typeof t === 'string'` maps a string to `\x7b name: t \x7d`, objects as above. -/
def normalizeTemplatesEntry : TEntry → Template
  | .str s => { name := s, description := none }
  | .obj n desc => normalizeObj n desc

/-- The shape of a successful templates response, as sniffed by the code:
`data?.template_info` array, else `data?.templates` array, else `data`
itself an array, else anything unrecognized. -/
inductive TemplatesData where
  | withTemplateInfo (template_info : List TEntry)
  | withTemplates (templates : List TEntry)
  | directArray (entries : List TEntry)
  | otherShape
deriving DecidableEq, Repr

/-- The hardcoded fallback catalog installed when the templates request
throws. -/
def fallbackTemplates : List Template :=
  [{ name := "default", description := some "Clean and professional" },
   { name := "modern", description := some "Contemporary design" },
   { name := "classic", description := some "Traditional format" },
   { name := "minimal", description := some "Simple and elegant" },
   { name := "professional", description := some "Corporate style" },
   { name := "executive", description := some "Executive level" },
   { name := "tech", description := some "Tech industry focused" }]

/-- `fetchTemplates` from the templates page: normalizes a successful
response by shape-sniffing (unrecognized shapes give the empty list) and
substitutes the fallback catalog only when the request throws. -/
def fetchTemplates (resp : Except Unit TemplatesData) : List Template :=
  match resp with
  | .error _ => fallbackTemplates
  | .ok d =>
      let templateList :=
        match d with
        | .withTemplateInfo l => l.map normalizeInfoEntry
        | .withTemplates l => l.map normalizeTemplatesEntry
        | .directArray l => l.map normalizeTemplatesEntry
        | .otherShape => []
      if templateList.length > 0 then templateList else []

/-- One user action on a repeating section: clicking "Add" or the trash
button of the item at `i`. -/
inductive EditOp where
  | add
  | remove (i : Int)
deriving DecidableEq, Repr

/-- Apply one list-editor operation to a section list. -/
def applyOp (f : ListField) (l : List (Option JsObj)) : EditOp → List (Option JsObj)
  | .add => l ++ [some (defaultItem f)]
  | .remove i => removeItemList l i

/-- Apply a sequence of list-editor operations. -/
def applyOps (f : ListField) (l : List (Option JsObj)) (ops : List EditOp) :
    List (Option JsObj) :=
  ops.foldl (applyOp f) l

/-- Number of `add` operations in a sequence. -/
def countAdds : List EditOp → Nat
  | [] => 0
  | .add :: r => countAdds r + 1
  | .remove _ :: r => countAdds r

/-- Number of `remove` operations in a sequence. -/
def countRemoves : List EditOp → Nat
  | [] => 0
  | .add :: r => countRemoves r
  | .remove _ :: r => countRemoves r + 1

/-- A sequence of operations is valid when every `remove` targets an
in-bounds index of the list as it stands when the operation is applied. -/
def validSeq (f : ListField) : List (Option JsObj) → List EditOp → Bool
  | _, [] => true
  | l, .add :: r => validSeq f (applyOp f l .add) r
  | l, .remove i :: r =>
      (decide (0 ≤ i) && decide (i < (l.length : Int))) &&
        validSeq f (applyOp f l (.remove i)) r

end ResumeBuilder

namespace ResumeBuilder

/-! ### Helper lemmas -/

theorem getListField_setListField (d : ResumeData) (f : ListField)
    (l : List (Option JsObj)) : getListField (setListField d f l) f = l := by
  cases f <;> rfl

theorem setListField_self (d : ResumeData) (f : ListField) :
    setListField d f (getListField d f) = d := by
  cases f <;> rfl

theorem resume_id_setListField (d : ResumeData) (f : ListField)
    (l : List (Option JsObj)) : (setListField d f l).resume_id = d.resume_id := by
  cases f <;> rfl

theorem filterIdxFrom_eq_self {idx : Int} (l : List α) (k : Nat)
    (h : idx < (k : Int) ∨ ((k : Int) + l.length ≤ idx)) :
    filterIdxFrom (fun i => ((i : Int) != idx)) k l = l := by
  induction l generalizing k with
  | nil => rfl
  | cons a l ih =>
      have hk : ((k : Int) != idx) = true := by
        simp only [List.length_cons] at h
        simp only [bne_iff_ne, ne_eq]
        push_cast at h ⊢
        omega
      simp only [filterIdxFrom, hk, if_true]
      rw [ih]
      simp only [List.length_cons] at h
      push_cast at h ⊢
      omega

theorem filterIdxFrom_remove (l : List α) (k j : Nat) :
    filterIdxFrom (fun i => ((i : Int) != ((k + j : Nat) : Int))) k l =
      l.take j ++ l.drop (j + 1) := by
  induction l generalizing k j with
  | nil => simp [filterIdxFrom]
  | cons a l ih =>
      cases j with
      | zero =>
          have hk : ((k : Int) != ((k + 0 : Nat) : Int)) = false := by
            simp
          simp only [filterIdxFrom, hk, if_false]
          rw [filterIdxFrom_eq_self]
          · simp
          · left
            push_cast
            omega
      | succ m =>
          have hk : ((k : Int) != ((k + (m + 1) : Nat) : Int)) = true := by
            simp only [bne_iff_ne, ne_eq]
            push_cast
            omega
          simp only [filterIdxFrom, hk, if_true]
          simp only [show k + (m + 1) = (k + 1) + m from by omega]
          rw [ih]
          simp

theorem removeItemList_out_of_bounds (l : List (Option JsObj)) (idx : Int)
    (h : idx < 0 ∨ (l.length : Int) ≤ idx) : removeItemList l idx = l := by
  unfold removeItemList
  apply filterIdxFrom_eq_self
  push_cast
  omega

theorem removeItemList_eq_take_drop (l : List (Option JsObj)) (idx : Int)
    (h : 0 ≤ idx) :
    removeItemList l idx = l.take idx.toNat ++ l.drop (idx.toNat + 1) := by
  unfold removeItemList
  have h2 := filterIdxFrom_remove l 0 idx.toNat
  simp only [Nat.zero_add] at h2
  simp only [Int.toNat_of_nonneg h] at h2
  exact h2

theorem removeItemList_sublist (l : List (Option JsObj)) (idx : Int) :
    (removeItemList l idx).Sublist l := by
  rcases lt_or_le idx 0 with h | h
  · rw [removeItemList_out_of_bounds l idx (Or.inl h)]
  · rw [removeItemList_eq_take_drop l idx h]
    have h1 : (l.drop (idx.toNat + 1)).Sublist (l.drop idx.toNat) := by
      have hd : l.drop (idx.toNat + 1) = (l.drop idx.toNat).drop 1 := by
        rw [List.drop_drop, Nat.add_comm]
      rw [hd]
      exact List.drop_sublist 1 (l.drop idx.toNat)
    have h2 := List.Sublist.append_left h1 (l.take idx.toNat)
    rw [List.take_append_drop] at h2
    exact h2

theorem removeItemList_length (l : List (Option JsObj)) (idx : Int)
    (h0 : 0 ≤ idx) (hl : idx < (l.length : Int)) :
    (removeItemList l idx).length + 1 = l.length := by
  rw [removeItemList_eq_take_drop l idx h0]
  simp only [List.length_append, List.length_take, List.length_drop]
  omega

end ResumeBuilder

namespace ResumeBuilder

/-! ### Concrete documents used by counterexamples and witnesses -/

/-- A document that already has the non-empty identity `"x"`. -/
def docX : ResumeData := { initialResumeData with resume_id := "x" }

/-- A document that already has the non-empty identity `"a"`. -/
def docA : ResumeData := { initialResumeData with resume_id := "a" }

/-- C1: with an empty identity, Improve issues exactly one create call and
then exactly one improve call whose identity argument is the resume_id
returned by the create response; with a non-empty identity, Improve issues
zero create calls and exactly one improve call using that identity. -/
theorem c1_improve_two_step_protocol :
    (∀ (doc : ResumeData) (fl : Bool) (s : String)
        (imr : Except Unit (Option VersionPatch)),
        doc.resume_id = "" → s ≠ "" →
        (handleImprove doc fl (.ok (some s)) imr).2.2.calls =
          [.create doc, .improve s doc]) ∧
    (∀ (doc : ResumeData) (fl : Bool) (crr : Except Unit (Option String))
        (imr : Except Unit (Option VersionPatch)),
        doc.resume_id ≠ "" →
        (handleImprove doc fl crr imr).2.2.calls =
          [.improve doc.resume_id doc]) := by
  constructor
  · intro doc fl s imr h hs
    rcases imr with e | v
    · simp [handleImprove, h, hs]
    · rcases v with _ | p <;> simp [handleImprove, h, hs]
  · intro doc fl crr imr h
    rcases imr with e | v
    · simp [handleImprove, h]
    · rcases v with _ | p <;> simp [handleImprove, h]

/-- C1 witness: the protocol evaluated at concrete documents. -/
theorem c1_improve_two_step_protocol_witness :
    (handleImprove initialResumeData false (.ok (some "id1")) (.ok none)).2.2.calls =
      [.create initialResumeData, .improve "id1" initialResumeData] ∧
    (handleImprove docX false (.ok none) (.ok none)).2.2.calls =
      [.improve docX.resume_id docX] :=
  ⟨c1_improve_two_step_protocol.1 initialResumeData false "id1" (.ok none)
      rfl (by decide),
   c1_improve_two_step_protocol.2 docX false (.ok none) (.ok none) (by decide)⟩

end ResumeBuilder

namespace ResumeBuilder

/-- C2 counterexample: with the in-flight flag set and identity `"x"`, a
direct re-entrant invocation of `handleImprove` still issues an improve
call — the controller does not consult the flag. -/
theorem c2_reentrant_call_counterexample :
    (handleImprove docX true (.ok none) (.ok none)).2.2.calls =
      [.improve "x" docX] ∧
    (handleImprove docX true (.ok none) (.ok none)).2.2.calls ≠ [] := by
  constructor <;> decide

/-- C2 (amended): `handleImprove` itself never branches on the in-flight
flag — a re-entrant invocation with the flag set behaves exactly as one
with the flag clear — and double submission is prevented only by the
button's `disabled` UI affordance, whose click handler does nothing while
the flag is set. -/
theorem c2_flag_guard_is_ui_only :
    (∀ (doc : ResumeData) (crr : Except Unit (Option String))
        (imr : Except Unit (Option VersionPatch)),
        handleImprove doc true crr imr = handleImprove doc false crr imr) ∧
    (∀ (doc : ResumeData) (crr : Except Unit (Option String))
        (imr : Except Unit (Option VersionPatch)),
        (improveButtonClick doc true crr imr).2.2.calls = []) :=
  ⟨fun _ _ _ => rfl, fun _ _ _ => rfl⟩

/-- C3 counterexample: with an empty experiences list, `handleListChange`
at index 1 is not a no-op — it grows the list to length 2, with a hole at
index 0 and a fresh one-field record at index 1. -/
theorem c3_out_of_bounds_counterexample :
    (handleListChange initialResumeData 1 .experiences "title" "X").experiences =
      [none, some [("title", "X")]] ∧
    initialResumeData.experiences = [] ∧
    handleListChange initialResumeData 1 .experiences "title" "X" ≠
      initialResumeData := by
  refine ⟨by decide, by decide, by decide⟩

/-- C3 (amended): for an index at or past the section length,
`handleListChange` extends the section to `index + 1` slots, filling the
gap with holes and placing a fresh record holding only the assigned
subfield at the index; it is not a no-op. -/
theorem c3_out_of_bounds_extends :
    ∀ (doc : ResumeData) (f : ListField) (i : Nat) (sub v : String),
      (getListField doc f).length ≤ i →
      getListField (handleListChange doc i f sub v) f =
        getListField doc f ++
          List.replicate (i - (getListField doc f).length) none ++
          [some [(sub, v)]] ∧
      (getListField (handleListChange doc i f sub v) f).length = i + 1 := by
  intro doc f i sub v h
  have hget : jsArrayGet (getListField doc f) i = none := by
    unfold jsArrayGet
    exact List.getD_eq_default _ _ h
  have hobj : objAssign ((jsArrayGet (getListField doc f) i).getD []) sub v =
      [(sub, v)] := by
    rw [hget]
    rfl
  unfold handleListChange
  rw [getListField_setListField, hobj]
  unfold jsArraySet
  rw [if_neg (by omega)]
  refine ⟨rfl, ?_⟩
  simp only [List.length_append, List.length_replicate, List.length_cons,
    List.length_nil]
  omega

/-- C3 witness: the extension behaviour at a concrete document. -/
theorem c3_out_of_bounds_extends_witness :
    getListField (handleListChange initialResumeData 2 .projects "name" "P")
        .projects =
      getListField initialResumeData .projects ++
        List.replicate (2 - (getListField initialResumeData .projects).length)
          none ++
        [some [("name", "P")]] ∧
    (getListField (handleListChange initialResumeData 2 .projects "name" "P")
        .projects).length = 2 + 1 :=
  c3_out_of_bounds_extends initialResumeData .projects 2 "name" "P" (by decide)

/-- C4 counterexample: submitting Create on a document whose identity is
already `"a"` while the backend's create response names a different record
`"b"` replaces the non-empty identity — the code performs no check that
the response reconfirms the same document. -/
theorem c4_identity_overwrite_counterexample :
    docA.resume_id = "a" ∧
    ((handleSubmit docA (.ok (some "b"))).1).resume_id = "b" := by
  constructor <;> decide

/-- C4 (amended): no local operation (scalar field edit, list-item edit,
add/remove, tokenizer replacement) ever changes `resume_id`; the identity
is changed only by backend-supplied values — Create submission stores
whatever id the create response returns (even over a non-empty identity,
without reconfirmation), and the improve `version` overlay replaces it
exactly when the patch carries a `resume_id` field. -/
theorem c4_identity_only_backend_writes :
    (∀ (doc : ResumeData) (f : FormField) (v : String),
        (handleChange doc f v).resume_id = doc.resume_id) ∧
    (∀ (doc : ResumeData) (i : Nat) (f : ListField) (sub v : String),
        (handleListChange doc i f sub v).resume_id = doc.resume_id) ∧
    (∀ (doc : ResumeData) (f : ListField),
        (addItem doc f).resume_id = doc.resume_id) ∧
    (∀ (doc : ResumeData) (f : ListField) (i : Int),
        (removeItem doc f i).resume_id = doc.resume_id) ∧
    (∀ (doc : ResumeData) (v : String),
        (skillsInputChange doc v).resume_id = doc.resume_id ∧
        (certificationsInputChange doc v).resume_id = doc.resume_id ∧
        (languagesInputChange doc v).resume_id = doc.resume_id) ∧
    (∀ (doc : ResumeData) (s : String), s ≠ "" →
        ((handleSubmit doc (.ok (some s))).1).resume_id = s) ∧
    (∀ (doc : ResumeData) (p : VersionPatch),
        (mergeVersion doc p).resume_id = p.resume_id.getD doc.resume_id) := by
  refine ⟨?_, ?_, ?_, ?_, ?_, ?_, ?_⟩
  · intro doc f v
    cases f <;> rfl
  · intro doc i f sub v
    unfold handleListChange
    exact resume_id_setListField _ _ _
  · intro doc f
    exact resume_id_setListField _ _ _
  · intro doc f i
    exact resume_id_setListField _ _ _
  · intro doc v
    exact ⟨rfl, rfl, rfl⟩
  · intro doc s hs
    simp [handleSubmit, hs]
  · intro doc p
    rfl

/-- C4 witness: a concrete create response id is stored verbatim. -/
theorem c4_identity_only_backend_writes_witness :
    ((handleSubmit docA (.ok (some "fresh-id"))).1).resume_id = "fresh-id" :=
  c4_identity_only_backend_writes.2.2.2.2.2.1 docA "fresh-id" (by decide)

end ResumeBuilder

namespace ResumeBuilder

/-- C5 counterexample: a successful response of unrecognized shape yields
the empty list, not the seven-entry fallback catalog. -/
theorem c5_malformed_shape_counterexample :
    fetchTemplates (.ok .otherShape) = [] ∧
    fetchTemplates (.ok .otherShape) ≠ fallbackTemplates := by
  constructor <;> decide

/-- C5 (amended): on transport failure `fetchTemplates` yields exactly the
fixed seven-entry fallback catalog (default, modern, classic, minimal,
professional, executive, tech), every entry of which has a non-empty name;
a successful response of unrecognized or absent shape instead yields the
empty list. -/
theorem c5_fallback_catalog :
    fetchTemplates (.error ()) = fallbackTemplates ∧
    fallbackTemplates.length = 7 ∧
    fallbackTemplates.map Template.name =
      ["default", "modern", "classic", "minimal", "professional",
       "executive", "tech"] ∧
    (fallbackTemplates.all fun t => !(t.name == "")) = true ∧
    fetchTemplates (.ok .otherShape) = [] := by
  refine ⟨by decide, by decide, by decide, by decide, by decide⟩

/-- C6: every reachable step position lies in `[1, 4]`; retreating at step
1 and advancing at step 4 are no-ops; both buttons clamp, advancing to
`min (p + 1) 4` and retreating to `max (p - 1) 1`, with no wraparound. -/
theorem c6_step_navigation_clamps :
    (∀ p : Nat, ReachableStep p → 1 ≤ p ∧ p ≤ 4) ∧
    retreatStep 1 = 1 ∧
    advanceStep 4 = 4 ∧
    (∀ p : Nat, advanceStep p = min (p + 1) 4 ∧
      retreatStep p = max (p - 1) 1) := by
  refine ⟨?_, by decide, by decide, ?_⟩
  · intro p hp
    induction hp with
    | init => omega
    | next h ih =>
        simp only [advanceStep, steps, List.length_cons, List.length_nil]
        omega
    | back h ih =>
        simp only [retreatStep]
        omega
  · intro p
    constructor
    · simp only [advanceStep, steps, List.length_cons, List.length_nil]
      omega
    · simp only [retreatStep]
      omega

/-- C6 witness: the invariant instantiated at a reachable position. -/
theorem c6_step_navigation_clamps_witness :
    1 ≤ advanceStep 1 ∧ advanceStep 1 ≤ 4 :=
  c6_step_navigation_clamps.1 (advanceStep 1)
    (ReachableStep.next ReachableStep.init)

end ResumeBuilder

namespace ResumeBuilder

/-- C7 counterexample: a `removeItem` on an empty section removes nothing,
so the claimed length equation `initial + (adds - removes)` fails for the
one-operation sequence `[remove 0]` starting from the empty list. -/
theorem c7_length_equation_counterexample :
    ¬ (((applyOps .experiences [] [EditOp.remove 0]).length : ℤ) =
        ((([] : List (Option JsObj)).length : ℤ) +
          countAdds [EditOp.remove 0] - countRemoves [EditOp.remove 0])) := by
  decide

/-- C7 (amended): for every repeating section, any sequence of
`addItem`/`removeItem` operations in which each remove targets an index
that is in bounds when it is applied changes the collection length by
(adds − removes); `addItem` appends the section-appropriate default record
(experience: title/company/period/description; education:
degree/institution/year; project: name/description) at the end; an
in-bounds `removeItem i` removes exactly the record at `i`, shifting later
indices down by one; every `removeItem` result is a sublist of its input,
so the relative order of untouched items is preserved. -/
theorem c7_list_editor_algebra :
    (∀ (f : ListField) (l : List (Option JsObj)) (ops : List EditOp),
        validSeq f l ops = true →
        ((applyOps f l ops).length : ℤ) =
          (l.length : ℤ) + countAdds ops - countRemoves ops) ∧
    (∀ (doc : ResumeData) (f : ListField),
        getListField (addItem doc f) f =
          getListField doc f ++ [some (defaultItem f)]) ∧
    (defaultItem .experiences =
        [("title", ""), ("company", ""), ("period", ""), ("description", "")] ∧
      defaultItem .education =
        [("degree", ""), ("institution", ""), ("year", "")] ∧
      defaultItem .projects = [("name", ""), ("description", "")]) ∧
    (∀ (l : List (Option JsObj)) (idx : Int),
        0 ≤ idx → idx < (l.length : ℤ) →
        removeItemList l idx = l.take idx.toNat ++ l.drop (idx.toNat + 1)) ∧
    (∀ (l : List (Option JsObj)) (idx : Int),
        (removeItemList l idx).Sublist l) := by
  refine ⟨?_, ?_, ⟨rfl, rfl, rfl⟩, ?_, removeItemList_sublist⟩
  · intro f l ops
    induction ops generalizing l with
    | nil =>
        intro _
        simp [applyOps, countAdds, countRemoves]
    | cons op r ih =>
        intro hv
        cases op with
        | add =>
            have hv' : validSeq f (applyOp f l .add) r = true := hv
            have := ih (applyOp f l .add) hv'
            have hlen : (applyOp f l .add).length = l.length + 1 := by
              simp [applyOp]
            rw [show applyOps f l (.add :: r) = applyOps f (applyOp f l .add) r
                from rfl]
            rw [this, hlen]
            simp only [countAdds, countRemoves]
            push_cast
            ring
        | remove i =>
            have hv2 : ((decide (0 ≤ i) && decide (i < (l.length : Int))) &&
                validSeq f (applyOp f l (.remove i)) r) = true := hv
            simp only [Bool.and_eq_true, decide_eq_true_eq] at hv2
            obtain ⟨⟨h0, hl⟩, hv'⟩ := hv2
            have := ih (applyOp f l (.remove i)) hv'
            have hlen : (applyOp f l (.remove i)).length + 1 = l.length := by
              simpa [applyOp] using removeItemList_length l i h0 hl
            rw [show applyOps f l (.remove i :: r) =
                applyOps f (applyOp f l (.remove i)) r from rfl]
            rw [this]
            simp only [countAdds, countRemoves]
            omega
  · intro doc f
    unfold addItem
    exact getListField_setListField _ _ _
  · intro l idx h0 hl
    exact removeItemList_eq_take_drop l idx h0

/-- C7 witness: the length equation and the in-bounds removal evaluated on
concrete inputs. -/
theorem c7_list_editor_algebra_witness :
    ((applyOps .projects [] [EditOp.add, EditOp.add, EditOp.remove 0]).length : ℤ) =
      ((([] : List (Option JsObj)).length : ℤ) +
        countAdds [EditOp.add, EditOp.add, EditOp.remove 0] -
        countRemoves [EditOp.add, EditOp.add, EditOp.remove 0]) ∧
    removeItemList [some [("name", "p0")], none] 0 =
      ([some [("name", "p0")], none] : List (Option JsObj)).take (Int.toNat 0) ++
        ([some [("name", "p0")], none] : List (Option JsObj)).drop (Int.toNat 0 + 1) :=
  ⟨c7_list_editor_algebra.1 .projects []
      [EditOp.add, EditOp.add, EditOp.remove 0] (by decide),
   c7_list_editor_algebra.2.2.2.1 [some [("name", "p0")], none] 0
      (by decide) (by decide)⟩

end ResumeBuilder

namespace ResumeBuilder

/-- C8: the skills, certifications and languages inputs replace their
entire list atomically with the input split on commas, each token trimmed
and empty tokens discarded; every produced token is non-empty; and
tokenizing `"A, B ,, C"` yields exactly `["A", "B", "C"]`. -/
theorem c8_comma_tokenizer :
    (∀ (doc : ResumeData) (v : String),
        skillsInputChange doc v = { doc with skills := tokenize v }) ∧
    (∀ (doc : ResumeData) (v : String),
        certificationsInputChange doc v =
          { doc with certifications := tokenize v }) ∧
    (∀ (doc : ResumeData) (v : String),
        languagesInputChange doc v = { doc with languages := tokenize v }) ∧
    tokenize "A, B ,, C" = ["A", "B", "C"] ∧
    (∀ s : String, ((tokenize s).all fun t => !(t == "")) = true) := by
  refine ⟨fun _ _ => rfl, fun _ _ => rfl, fun _ _ => rfl, by decide, ?_⟩
  intro s
  simp only [List.all_eq_true, tokenize, List.mem_filter]
  intro t ht
  simpa using ht.2

/-- C9 counterexample: a failing improve call on a document with identity
`"x"` produces no alert at all (only a console diagnostic) — the failure is
not reported to the user by a blocking notification. -/
theorem c9_improve_failure_silent_counterexample :
    (handleImprove docX false (.ok none) (.error ())).2.2.calls =
      [.improve "x" docX] ∧
    (handleImprove docX false (.ok none) (.error ())).2.2.alerts = [] ∧
    (handleImprove docX false (.ok none) (.error ())).2.2.logs =
      ["AI Improvement failed:"] := by
  refine ⟨by decide, by decide, by decide⟩

/-- C9 (amended): a failing create in the Create submission is reported by
a blocking alert and leaves the document unchanged; failures anywhere in
the Improve flow are only logged to the console, never alerted, and merge
no field of the error response — the document is unchanged except that a
create step that succeeded before a failing improve has already stored the
new identity. -/
theorem c9_failure_handling :
    (∀ doc : ResumeData,
        handleSubmit doc (.error ()) =
          (doc, { calls := [.create doc]
                  alerts := ["Failed to create resume. Please try again."]
                  logs := ["Failed to create resume:"] })) ∧
    (∀ (doc : ResumeData) (fl : Bool)
        (imr : Except Unit (Option VersionPatch)), doc.resume_id = "" →
        handleImprove doc fl (.error ()) imr =
          (doc, false, { calls := [.create doc], alerts := []
                         logs := ["AI Improvement failed:"] })) ∧
    (∀ (doc : ResumeData) (fl : Bool)
        (crr : Except Unit (Option String)), doc.resume_id ≠ "" →
        handleImprove doc fl crr (.error ()) =
          (doc, false, { calls := [.improve doc.resume_id doc], alerts := []
                         logs := ["AI Improvement failed:"] })) ∧
    (∀ (doc : ResumeData) (fl : Bool) (s : String),
        doc.resume_id = "" → s ≠ "" →
        handleImprove doc fl (.ok (some s)) (.error ()) =
          ({ doc with resume_id := s }, false,
           { calls := [.create doc, .improve s doc], alerts := []
             logs := ["AI Improvement failed:"] })) := by
  refine ⟨?_, ?_, ?_, ?_⟩
  · intro doc
    rfl
  · intro doc fl imr h
    simp [handleImprove, h]
  · intro doc fl crr h
    simp [handleImprove, h]
  · intro doc fl s h hs
    simp [handleImprove, h, hs]

/-- C9 witness: the failure paths evaluated at concrete documents. -/
theorem c9_failure_handling_witness :
    handleImprove initialResumeData false (.error ()) (.ok none) =
      (initialResumeData, false,
       { calls := [.create initialResumeData], alerts := []
         logs := ["AI Improvement failed:"] }) ∧
    handleImprove docX false (.ok none) (.error ()) =
      (docX, false, { calls := [.improve docX.resume_id docX], alerts := []
                      logs := ["AI Improvement failed:"] }) ∧
    handleImprove initialResumeData false (.ok (some "id1")) (.error ()) =
      ({ initialResumeData with resume_id := "id1" }, false,
       { calls := [.create initialResumeData,
                   .improve "id1" initialResumeData]
         alerts := [], logs := ["AI Improvement failed:"] }) :=
  ⟨c9_failure_handling.2.1 initialResumeData false (.ok none) rfl,
   c9_failure_handling.2.2.1 docX false (.ok none) (by decide),
   c9_failure_handling.2.2.2 initialResumeData false "id1" rfl (by decide)⟩

/-- C10: `removeItem` with an index outside `[0, length)` of the targeted
section matches no element of the filter, so the section and the whole
document are left unchanged. -/
theorem c10_remove_out_of_bounds_noop :
    ∀ (doc : ResumeData) (f : ListField) (index : Int),
      (index < 0 ∨ ((getListField doc f).length : ℤ) ≤ index) →
      removeItem doc f index = doc := by
  intro doc f index h
  unfold removeItem
  rw [removeItemList_out_of_bounds _ _ h]
  exact setListField_self doc f

/-- C10 witness: removing index 5 from the empty education list leaves the
initial document unchanged. -/
theorem c10_remove_out_of_bounds_noop_witness :
    removeItem initialResumeData .education 5 = initialResumeData :=
  c10_remove_out_of_bounds_noop initialResumeData .education 5
    (Or.inr (by decide))

end ResumeBuilder
